import Mathlib

/-!
Shallow embedding of the codependency library (src/index.js).

The library resolves optional peer dependencies of a middleware module:
it locates package manifests, extracts declared version ranges, probes
whether a named dependency is installed and version-valid, and provides
a gateway (requirePeer) function with per-call strictness options.

External collaborators (the filesystem, the node module loader, and the
semver library) are modelled as components of an `Env` record of pure
functions; the JS value semantics relevant to the code (truthiness,
typeof, string coercion in messages) are modelled explicitly.
-/

set_option autoImplicit false

namespace Codependency

/-- A JavaScript value, as far as this library inspects values:
null, undefined, string, number, boolean. -/
inductive JSVal where
  | vnull
  | vundef
  | vstr (s : String)
  | vnum (n : Int)
  | vbool (b : Bool)
deriving DecidableEq

/-- JS truthiness of a value. -/
def JSVal.truthy : JSVal → Bool
  | .vnull => false
  | .vundef => false
  | .vstr s => s ≠ ""
  | .vnum n => n ≠ 0
  | .vbool b => b

/-- Whether `typeof v === "string"` holds. -/
def JSVal.isStr : JSVal → Bool
  | .vstr _ => true
  | _ => false

/-- The result of the JS `typeof` operator, as a string. -/
def JSVal.typeofStr : JSVal → String
  | .vnull => "object"
  | .vundef => "undefined"
  | .vstr _ => "string"
  | .vnum _ => "number"
  | .vbool _ => "boolean"

/-- JS string coercion as used by string concatenation in error messages. -/
def JSVal.jsToString : JSVal → String
  | .vnull => "null"
  | .vundef => "undefined"
  | .vstr s => s
  | .vnum n => toString n
  | .vbool b => if b then "true" else "false"

/-- An error thrown by the node module loader: its `code` property
(possibly undefined) and its `message`. -/
structure JSError where
  code : Option String
  message : String
deriving DecidableEq

/-- An error thrown by the library itself or propagated from the loader. -/
inductive Err where
  | error (msg : String)
  | typeError (msg : String)
  | loadErr (e : JSError)
deriving DecidableEq

/-- A parsed package.json manifest: its `name` field, its `version` field
(an arbitrary JS value, since the code checks its type at runtime), and
its dependency-declaring sections, each mapping dependency names to
version-range strings.  Section maps are association lists; JS objects
have unique keys, which theorems assume where it matters. -/
structure Pkg where
  name : Option String
  version : JSVal
  sections : List (String × List (String × String))
deriving DecidableEq

/-- The field access `pkg.dependencies` (undefined when the section is absent). -/
def Pkg.dependencies (p : Pkg) : Option (List (String × String)) :=
  p.sections.lookup "dependencies"

/-- The field access `pkg.devDependencies`. -/
def Pkg.devDependencies (p : Pkg) : Option (List (String × String)) :=
  p.sections.lookup "devDependencies"

/-- The field access `pkg.optionalDependencies`. -/
def Pkg.optionalDependencies (p : Pkg) : Option (List (String × String)) :=
  p.sections.lookup "optionalDependencies"

/-- A value returned by the module loader: the manifest fields it exposes
when read as a package.json, plus an identity tag modelling JS object
identity (used for strict identity comparison and for recognising which
loaded interface a gateway call returned). -/
structure Loaded where
  pkg : Pkg
  id : Nat
deriving DecidableEq

/-- A node `Module` object: the path of its file (as a list of path
components from the filesystem root), the identity of its exports object,
and its parent module. -/
inductive NodeModule where
  | mk (filename : List String) (exportsId : Nat) (parent : Option NodeModule)

def NodeModule.filename : NodeModule → List String
  | .mk f _ _ => f

def NodeModule.exportsId : NodeModule → Nat
  | .mk _ e _ => e

def NodeModule.parent : NodeModule → Option NodeModule
  | .mk _ _ p => p

/-- The external collaborators: filesystem existence checks, the global
`require` (on absolute paths), the per-module `baseMod.require` (on
require specifiers), and the semver library (`satisfies`, truthiness of
`validRange`). -/
structure Env where
  fileExists : List String → Bool
  globalRequire : List String → Except JSError Loaded
  modRequire : NodeModule → String → Except JSError Loaded
  satisfies : String → String → Bool
  validRange : String → Bool

/-- Lookup of a string-valued key in a JS object, with the result used
under JS truthiness: an absent key and an empty-string value are both
falsy and collapse to `none`. -/
def jsStrLookup (l : List (String × String)) (k : String) : Option String :=
  match l.lookup k with
  | some v => if v = "" then none else some v
  | none => none

/-- Substring occurrence on character lists. -/
def listContains (s sub : List Char) : Bool :=
  match s with
  | [] => sub.isEmpty
  | c :: t => sub.isPrefixOf (c :: t) || listContains t sub

/-- The test `error.message.indexOf("undefined") > -1` (the code passes
the undefined variable `mod` to indexOf, which coerces it to the string
"undefined"). -/
def strContains (s sub : String) : Bool :=
  listContains s.data sub.data

/-- Sub-path truncation in realResolve: `name.slice(0, name.indexOf("/"))`
when a "/" occurs, the name unchanged otherwise — that is, the characters
before the first "/". -/
def truncateName (name : String) : String :=
  ⟨name.data.takeWhile (fun c => c ≠ '/')⟩

/-- isRealDep (src/index.js line 9): a dependency section declares `name`
when the section exists and its value for `name` is truthy. -/
def isRealDep (dependencies : Option (List (String × String))) (name : String) : Bool :=
  match dependencies with
  | none => false
  | some l => (jsStrLookup l name).isSome

/-- isRealDepInPackage (src/index.js line 21): `name` is declared in the
regular, dev, or optional dependency section of `pkg`. -/
def isRealDepInPackage (pkg : Pkg) (name : String) : Bool :=
  isRealDep pkg.dependencies name ||
  isRealDep pkg.devDependencies name ||
  isRealDep pkg.optionalDependencies name

/-- The resolution result record built by realResolve.  `isValid` and
`isInstalled` start as JS null (`none`) and are assigned booleans on the
paths the code assigns them. -/
structure Resolved where
  supportedRange : Option String
  installedVersion : JSVal
  isValid : Option Bool
  isInstalled : Option Bool
  pkgPath : String
deriving DecidableEq

/-- realResolve (src/index.js line 40): probe a peer dependency by its
manifest only.  All loader failures are caught; the outcome is encoded in
the returned record. -/
def realResolve (env : Env) (deps : List (String × String)) (baseMod : NodeModule)
    (basePkg : Pkg) (name0 : String) : Resolved :=
  let name := truncateName name0
  let range := jsStrLookup deps name
  let pkgPath := name ++ "/package.json"
  let base : Resolved :=
    { supportedRange := range
      installedVersion := .vnull
      isValid := none
      isInstalled := none
      pkgPath := pkgPath }
  if isRealDepInPackage basePkg name = false then
    { base with isInstalled := some false, isValid := some false }
  else
    match env.modRequire baseMod pkgPath with
    | .ok loaded =>
      match loaded.pkg.version with
      | .vstr v =>
        { base with
          isInstalled := some true
          installedVersion := .vstr v
          isValid := some (match range with
            | some r => env.satisfies v r
            | none => true) }
      | _ => { base with isInstalled := some true }
    | .error e =>
      { base with
        isInstalled := some (decide (e.code ≠ some "MODULE_NOT_FOUND"))
        isValid := some false }

/-- Truthiness of a possibly-null boolean field. -/
def optBoolTruthy : Option Bool → Bool
  | none => false
  | some b => b

/-- Per-call options of the gateway function. -/
structure CallOptions where
  optional : Bool
  dontThrow : Bool
deriving DecidableEq

/-- The outcome of a gateway call: a normal return (of the loaded module,
or of undefined, modelled as `none`) or a thrown error. -/
inductive ReqResult where
  | ret (v : Option Loaded)
  | thrown (e : Err)
deriving DecidableEq

/-- realRequire (src/index.js line 103): resolve, then actually load the
dependency, honouring the `optional` and `dontThrow` call options. -/
def realRequire (env : Env) (deps : List (String × String)) (baseMod : NodeModule)
    (basePkg : Pkg) (middlewareName name : String) (opts : CallOptions) : ReqResult :=
  let resolved := realResolve env deps baseMod basePkg name
  let range := resolved.supportedRange.getD "*"
  let step : Except ReqResult (Bool × Option Loaded) :=
    if optBoolTruthy resolved.isInstalled then
      match env.modRequire baseMod name with
      | .ok m => .ok (true, some m)
      | .error e =>
        if e.code = some "MODULE_NOT_FOUND" && strContains e.message "undefined" then
          .ok (false, none)
        else if opts.dontThrow then
          .error (.ret none)
        else
          .error (.thrown (.loadErr e))
    else
      .ok (false, none)
  match step with
  | .error r => r
  | .ok (isInstalled, mod) =>
    if isInstalled = false then
      if opts.optional then
        .ret none
      else
        let cmd := "npm install " ++ name ++
          (if range ≠ "*" then "@\x27" ++ range ++ "\x27" else "") ++ " --save"
        .thrown (.error ("Module \"" ++ name ++ "\" required by \"" ++ middlewareName ++
          "\" not found. Please run: " ++ cmd))
    else if range = "*" then
      .ret mod
    else if resolved.installedVersion.truthy = false then
      if opts.dontThrow then
        .ret none
      else
        .thrown (.error ("Module \"" ++ name ++ "\" required by \"" ++ middlewareName ++
          "\" has no version information in \"" ++ resolved.pkgPath ++ "\"."))
    else if resolved.installedVersion.isStr = false then
      if opts.dontThrow then
        .ret none
      else
        .thrown (.typeError ("Version of module \"" ++ name ++ "\" required by \"" ++
          middlewareName ++ "\" is not a string (found instead: " ++
          resolved.installedVersion.typeofStr ++ ")."))
    else if optBoolTruthy resolved.isValid = false then
      if opts.dontThrow then
        .ret none
      else
        .thrown (.error ("Version \"" ++ resolved.installedVersion.jsToString ++
          "\" of module \"" ++ name ++ "\" required by \"" ++ middlewareName ++
          "\" does not satisfy required range \"" ++ range ++ "\"."))
    else
      .ret mod

/-- The loop body of findPackage (src/index.js line 208), on the reversed
component list of `lastDir`: compute the parent directory (drop the last
component, that is the tail of the reversed list), fail when the parent
equals the directory itself (the reversed list is empty, that is the
filesystem root was passed), otherwise test for package.json there and
continue upward. -/
def findPackageGo (fsExists : List String → Bool) : List String → Except Err (List String)
  | [] => .error (.error "No package.json found")
  | _ :: rest =>
    let pkgPath := rest.reverse ++ ["package.json"]
    if fsExists pkgPath then .ok pkgPath else findPackageGo fsExists rest

/-- The scanning loop of findPackage: starting from `lastDir`, walk parent
directories until a package.json is found or the root has been passed. -/
def findPackageLoop (fsExists : List String → Bool) (lastDir : List String) :
    Except Err (List String) :=
  findPackageGo fsExists lastDir.reverse

/-- findPackage (src/index.js line 204): locate the nearest package.json
above the module file; when `strictCheck` is set, also require that the
found package directory loads to the very exports object of `baseModule`. -/
def findPackage (env : Env) (baseModule : NodeModule) (strictCheck : Bool) :
    Except Err Pkg :=
  match findPackageLoop env.fileExists baseModule.filename with
  | .error e => .error e
  | .ok pkgPath =>
    let proceed : Except Err Unit :=
      if strictCheck then
        match env.globalRequire pkgPath.dropLast with
        | .error e => .error (.loadErr e)
        | .ok dirMod =>
          if dirMod.id ≠ baseModule.exportsId then
            .error (.error ("No package.json found that resolves to \"" ++
              String.intercalate "/" baseModule.filename ++ "\" (found instead: \"" ++
              String.intercalate "/" pkgPath.dropLast ++ "\")."))
          else
            .ok ()
      else
        .ok ()
    match proceed with
    | .error e => .error e
    | .ok _ =>
      match env.globalRequire pkgPath with
      | .error e => .error (.loadErr e)
      | .ok loaded => .ok loaded.pkg

/-- Assignment `fullDeps[name] = range` on a JS object modelled as an
association list: overwrite in place when the key is present, append
otherwise. -/
def objSet (l : List (String × String)) (k v : String) : List (String × String) :=
  if (l.lookup k).isSome then
    l.map (fun p => if p.1 = k then (k, v) else p)
  else
    l ++ [(k, v)]

/-- The inner loop of extractDeps over the entries of one section:
validate each range eagerly, abort on the first invalid one, otherwise
merge into the accumulator. -/
def extractSection (env : Env) :
    List (String × String) → List (String × String) → Except Err (List (String × String))
  | acc, [] => .ok acc
  | acc, (name, range) :: rest =>
    if env.validRange range then
      extractSection env (objSet acc name range) rest
    else
      .error (.error ("Version range \"" ++ range ++ "\" of dependency \"" ++ name ++
        "\" is not valid."))

/-- The outer loop of extractDeps over the listed section names: skip
absent sections, merge present ones in list order. -/
def extractLoop (env : Env) (pkg : Pkg) :
    List String → List (String × String) → Except Err (List (String × String))
  | [], acc => .ok acc
  | secName :: rest, acc =>
    match pkg.sections.lookup secName with
    | none => extractLoop env pkg rest acc
    | some entries =>
      match extractSection env acc entries with
      | .error e => .error e
      | .ok acc2 => extractLoop env pkg rest acc2

/-- extractDeps (src/index.js line 243): build the flat declared
dependency map from the listed manifest sections. -/
def extractDeps (env : Env) (pkg : Pkg) (index : List String) :
    Except Err (List (String × String)) :=
  extractLoop env pkg index []

/-- The state captured by a registered requirePeer closure. -/
structure Gateway where
  deps : List (String × String)
  baseMod : NodeModule
  basePkg : Pkg
  middlewareName : String

/-- A gateway call: `requirePeer(name, options)` (src/index.js line 325). -/
def Gateway.call (env : Env) (g : Gateway) (name : String) (opts : CallOptions) : ReqResult :=
  realRequire env g.deps g.baseMod g.basePkg g.middlewareName name opts

/-- The gateway side channel: `requirePeer.resolve(name)`
(src/index.js line 329). -/
def Gateway.resolveDep (env : Env) (g : Gateway) (name : String) : Resolved :=
  realResolve env g.deps g.baseMod g.basePkg name

/-- The expression `options.name || pkg.name` under JS string truthiness. -/
def jsOrStr (a b : Option String) : Option String :=
  match a with
  | some s => if s = "" then (match b with
      | some t => if t = "" then none else some t
      | none => none) else some s
  | none =>
    match b with
    | some t => if t = "" then none else some t
    | none => none

/-- Options of register (src/index.js line 290). -/
structure RegOptions where
  index : Option (List String)
  name : Option String
  strictCheck : Option Bool

/-- Instrumentation of one register call: how many times it invoked
findPackage (a manifest scan) and extractDeps (a dependency extraction). -/
structure RegEffects where
  findPackageCalls : Nat
  extractCalls : Nat
deriving DecidableEq

/-- register (src/index.js line 290): locate the middleware manifest
(strict by default), determine the registration name, return the cached
gateway when the name is already registered, otherwise extract the
declared dependency map, locate the consuming application manifest from
the parent module (not strict), build the gateway and cache it.  The
registry is passed and returned explicitly; the third component records
which scans this call performed. -/
def register (env : Env) (st : List (String × Gateway)) (baseModule : NodeModule)
    (o : RegOptions) : Except Err Gateway × List (String × Gateway) × RegEffects :=
  match findPackage env baseModule (decide (o.strictCheck ≠ some false)) with
  | .error e => (.error e, st, ⟨1, 0⟩)
  | .ok pkg =>
    match jsOrStr o.name pkg.name with
    | none => (.error (.error "No name was given to this middleware."), st, ⟨1, 0⟩)
    | some middlewareName =>
      match st.lookup middlewareName with
      | some gw => (.ok gw, st, ⟨1, 0⟩)
      | none =>
        let index := o.index.getD ["optionalPeerDependencies"]
        match extractDeps env pkg index with
        | .error e => (.error e, st, ⟨1, 1⟩)
        | .ok deps =>
          match baseModule.parent with
          | none =>
            (.error (.typeError "Cannot read property filename of undefined"), st, ⟨1, 1⟩)
          | some parentMod =>
            match findPackage env parentMod false with
            | .error e => (.error e, st, ⟨2, 1⟩)
            | .ok basePkg =>
              let gw : Gateway := ⟨deps, parentMod, basePkg, middlewareName⟩
              (.ok gw, (middlewareName, gw) :: st, ⟨2, 1⟩)

/-- get (src/index.js line 347): registry lookup by middleware name. -/
def getRegistered (st : List (String × Gateway)) (middlewareName : String) : Option Gateway :=
  st.lookup middlewareName

/-! ### Association-list helper lemmas -/

theorem lookup_append_right_none (l l2 : List (String × String)) (k : String)
    (h : l.lookup k = none) : (l ++ l2).lookup k = l2.lookup k := by
  induction l with
  | nil => simp
  | cons p t ih =>
    obtain ⟨a, b⟩ := p
    rw [List.cons_append]
    cases hk : k == a with
    | true => simp [List.lookup_cons, hk] at h
    | false =>
      simp only [List.lookup_cons, hk] at h ⊢
      exact ih h

theorem lookup_single_eq (k v : String) :
    ([(k, v)] : List (String × String)).lookup k = some v := by
  simp [List.lookup]

theorem lookup_map_replace (l : List (String × String)) (k v : String)
    (h : (l.lookup k).isSome) :
    (l.map (fun p => if p.1 = k then (k, v) else p)).lookup k = some v := by
  induction l with
  | nil => simp at h
  | cons p t ih =>
    obtain ⟨a, b⟩ := p
    by_cases hak : a = k
    · subst hak; simp
    · have hka : (k == a) = false := beq_eq_false_iff_ne.mpr (fun hh => hak hh.symm)
      simp only [List.lookup_cons, hka] at h
      simp only [List.map_cons, if_neg hak, List.lookup_cons, hka]
      exact ih h

theorem lookup_map_replace_ne (l : List (String × String)) (k v k' : String)
    (h : (k' == k) = false) :
    (l.map (fun p => if p.1 = k then (k, v) else p)).lookup k' = l.lookup k' := by
  induction l with
  | nil => simp
  | cons p t ih =>
    obtain ⟨a, b⟩ := p
    by_cases hak : a = k
    · subst hak
      simp [List.lookup_cons, h, ih]
    · have hx : (if (a, b).1 = k then (k, v) else (a, b)) = (a, b) := by
        simp [hak]
      simp only [List.map_cons, hx, List.lookup_cons]
      cases hk : k' == a <;> simp only [hk]
      exact ih

theorem lookup_append_single_ne (l : List (String × String)) (k v k' : String)
    (h : (k' == k) = false) :
    (l ++ [(k, v)]).lookup k' = l.lookup k' := by
  induction l with
  | nil => simp [List.lookup, h]
  | cons p t ih =>
    obtain ⟨a, b⟩ := p
    rw [List.cons_append]
    simp only [List.lookup_cons]
    cases hk : k' == a <;> simp only [hk]
    exact ih

theorem lookup_eq_none_of_not_mem_keys (l : List (String × String)) (k : String)
    (h : k ∉ l.map Prod.fst) : l.lookup k = none := by
  induction l with
  | nil => rfl
  | cons p t ih =>
    obtain ⟨a, b⟩ := p
    simp only [List.map_cons, List.mem_cons, not_or] at h
    have hk : (k == a) = false := beq_eq_false_iff_ne.mpr h.1
    simp only [List.lookup_cons, hk]
    exact ih h.2

theorem lookup_objSet_self (l : List (String × String)) (k v : String) :
    (objSet l k v).lookup k = some v := by
  unfold objSet
  split
  · exact lookup_map_replace l k v (by assumption)
  · rename_i hns
    have hnone : l.lookup k = none := by
      cases hl : l.lookup k with
      | none => rfl
      | some w => rw [hl] at hns; simp at hns
    rw [lookup_append_right_none l _ k hnone]
    exact lookup_single_eq k v

theorem lookup_objSet_ne (l : List (String × String)) (k v k' : String)
    (h : (k' == k) = false) :
    (objSet l k v).lookup k' = l.lookup k' := by
  unfold objSet
  split
  · exact lookup_map_replace_ne l k v k' h
  · exact lookup_append_single_ne l k v k' h

/-! ### Concrete fixtures for witnesses and counterexamples -/

/-- The consuming application module. -/
def appMod : NodeModule := .mk ["app", "server.js"] 0 none

/-- The middleware module, loaded from inside the application. -/
def mwMod : NodeModule := .mk ["app", "node_modules", "mw", "index.js"] 1 (some appMod)

/-- The middleware manifest. -/
def mwPkg : Pkg := ⟨some "mw", .vstr "1.0.0", [("optionalPeerDependencies", [("redis", "~1.2.0")])]⟩

/-- The application manifest, declaring redis as a regular dependency. -/
def consumerPkg : Pkg := ⟨some "app", .vstr "0.0.1", [("dependencies", [("redis", "~1.2.0")])]⟩

/-- An application manifest declaring no dependencies at all. -/
def bareConsumerPkg : Pkg := ⟨some "app", .vstr "1.0.0", []⟩

/-- A sample environment: redis is installed at 1.2.5, leftpad exists on
disk but is not declared anywhere, everything else is missing. -/
def sampleEnv : Env :=
  { fileExists := fun p =>
      p == ["app", "node_modules", "mw", "package.json"] || p == ["app", "package.json"]
    globalRequire := fun p =>
      if p == ["app", "node_modules", "mw", "package.json"] then .ok ⟨mwPkg, 10⟩
      else if p == ["app", "node_modules", "mw"] then .ok ⟨mwPkg, 1⟩
      else if p == ["app", "package.json"] then .ok ⟨consumerPkg, 11⟩
      else .error ⟨some "MODULE_NOT_FOUND", "Cannot find module"⟩
    modRequire := fun _ spec =>
      if spec == "redis/package.json" then .ok ⟨⟨some "redis", .vstr "1.2.5", []⟩, 42⟩
      else if spec == "redis" then .ok ⟨⟨none, .vundef, []⟩, 7⟩
      else if spec == "leftpad/package.json" then .ok ⟨⟨some "leftpad", .vstr "9.9.9", []⟩, 99⟩
      else if spec == "leftpad" then .ok ⟨⟨none, .vundef, []⟩, 98⟩
      else .error ⟨some "MODULE_NOT_FOUND", "Cannot find module"⟩
    satisfies := fun v r => v == "1.2.5" && r == "~1.2.0"
    validRange := fun r => r != "not-a-version" }

/-- C1: for a dependency the resolver reports not installed, a call with
`optional` returns empty; but a call with `dontThrow` (and not `optional`)
still throws the descriptive please-install error, contradicting the claim
(and the JSDoc of realRequire) that `dontThrow` suppresses all errors. -/
theorem c1_notInstalled_dontThrow_still_throws :
    realRequire sampleEnv [("foo", "~1.0.0")] appMod bareConsumerPkg "mw" "foo"
      ⟨true, false⟩ = .ret none ∧
    realRequire sampleEnv [("foo", "~1.0.0")] appMod bareConsumerPkg "mw" "foo"
      ⟨false, true⟩ = .thrown (.error ("Module \"foo\" required by \"mw\" not found. " ++
        "Please run: npm install foo@\x27~1.0.0\x27 --save")) := by
  constructor <;> rfl

/-- Helper for C10 and C4: the shape of installedVersion. -/
theorem realResolve_installedVersion_shape (env : Env) (deps : List (String × String))
    (baseMod : NodeModule) (basePkg : Pkg) (name : String) :
    (realResolve env deps baseMod basePkg name).installedVersion = .vnull ∨
    ∃ s, (realResolve env deps baseMod basePkg name).installedVersion = .vstr s := by
  simp only [realResolve]
  split
  · left; rfl
  · split
    · split
      · right; exact ⟨_, rfl⟩
      · left; rfl
    · left; rfl

/-- C4: a dependency name whose truncated package name is declared in none
of the consumer manifest dependency sections resolves to not-installed and
not-valid, with a result that does not depend on the environment at all
(no manifest read is attempted), and an `optional` gateway call for it
returns empty with no error in every environment. -/
theorem c4_undeclared_dep_not_installed (deps : List (String × String)) (basePkg : Pkg)
    (name : String)
    (h : isRealDepInPackage basePkg (truncateName name) = false) :
    (∀ env : Env, ∀ baseMod : NodeModule,
      realResolve env deps baseMod basePkg name =
        { supportedRange := jsStrLookup deps (truncateName name)
          installedVersion := .vnull
          isValid := some false
          isInstalled := some false
          pkgPath := truncateName name ++ "/package.json" }) ∧
    (∀ env : Env, ∀ baseMod : NodeModule, ∀ middlewareName : String, ∀ dt : Bool,
      realRequire env deps baseMod basePkg middlewareName name ⟨true, dt⟩ = .ret none) := by
  constructor
  · intro env baseMod
    simp [realResolve, h]
  · intro env baseMod middlewareName dt
    simp [realRequire, realResolve, h, optBoolTruthy]

/-- C4 witness: leftpad is installed on disk in the sample environment but
never declared by the consumer, so it resolves as not installed and an
optional gateway call returns empty. -/
theorem c4_undeclared_dep_witness :
    isRealDepInPackage bareConsumerPkg (truncateName "leftpad") = false ∧
    realRequire sampleEnv [] appMod bareConsumerPkg "mw" "leftpad" ⟨true, false⟩ = .ret none := by
  refine ⟨rfl, ?_⟩
  exact (c4_undeclared_dep_not_installed [] bareConsumerPkg "leftpad" rfl).2
    sampleEnv appMod "mw" false

/-- C10: the resolver only assigns installedVersion from a value it has
checked to be a string, so installedVersion is always JS null or a string;
consequently a gateway call can never throw the TypeError of the
non-string-version branch of realRequire. -/
theorem c10_installedVersion_null_or_string (env : Env) (deps : List (String × String))
    (baseMod : NodeModule) (basePkg : Pkg) (name : String) :
    ((realResolve env deps baseMod basePkg name).installedVersion = .vnull ∨
      ∃ s, (realResolve env deps baseMod basePkg name).installedVersion = .vstr s) ∧
    (∀ middlewareName : String, ∀ opts : CallOptions, ∀ msg : String,
      realRequire env deps baseMod basePkg middlewareName name opts ≠
        .thrown (.typeError msg)) := by
  refine ⟨realResolve_installedVersion_shape env deps baseMod basePkg name, ?_⟩
  intro middlewareName opts msg
  have hshape := realResolve_installedVersion_shape env deps baseMod basePkg name
  simp only [realRequire]
  split
  · rename_i r hr
    split at hr
    · split at hr
      · exact absurd hr (by simp)
      · split at hr
        · simp_all
        · split at hr <;> (injection hr with hr; rw [← hr]; simp)
    · exact absurd hr (by simp)
  · rename_i p hp
    split
    · split <;> simp
    · split
      · simp
      · split
        · split <;> simp
        · split
          · split
            · simp
            · rename_i htruthy hnotstr hdt
              exfalso
              rcases hshape with hnull | ⟨s, hs⟩
              · rw [hnull] at htruthy; simp [JSVal.truthy] at htruthy
              · rw [hs] at hnotstr; simp [JSVal.isStr] at hnotstr
          · split
            · split <;> simp
            · simp

/-- A module loader where the redis manifest is present but unreadable
(permission denied), everything else missing. -/
def c3BrokenRequire : NodeModule → String → Except JSError Loaded := fun _ spec =>
  if spec == "redis/package.json" then .error ⟨some "EACCES", "permission denied"⟩
  else .error ⟨some "MODULE_NOT_FOUND", "Cannot find module"⟩

def c3Env : Env := { sampleEnv with modRequire := c3BrokenRequire }

/-- C3 counterexample: a dependency declared by the consumer whose manifest
read fails with a non-missing error (EACCES) yields isInstalled = some true
in the resolution result, not the "unknown" (null) value the claim states. -/
theorem c3_other_failure_isInstalled_true :
    (realResolve c3Env [("redis", "~1.2.0")] appMod consumerPkg "redis").isInstalled
      = some true ∧
    (realResolve c3Env [("redis", "~1.2.0")] appMod consumerPkg "redis").isInstalled
      ≠ none := by
  constructor <;> simp [realResolve, c3Env, c3BrokenRequire, sampleEnv, isRealDepInPackage,
    isRealDep, consumerPkg, Pkg.dependencies, Pkg.devDependencies, Pkg.optionalDependencies,
    jsStrLookup, truncateName]

/-- C3 amended: when the consumer declares the dependency but reading its
manifest fails, a missing-module failure yields isInstalled = some false,
and any other load-time failure yields isInstalled = some true (present
but broken); in both cases isValid = some false. -/
theorem c3_manifest_read_failure (env : Env) (deps : List (String × String))
    (baseMod : NodeModule) (basePkg : Pkg) (name : String) (e : JSError)
    (hdecl : isRealDepInPackage basePkg (truncateName name) = true)
    (hread : env.modRequire baseMod (truncateName name ++ "/package.json") = .error e) :
    ((e.code = some "MODULE_NOT_FOUND" →
      (realResolve env deps baseMod basePkg name).isInstalled = some false) ∧
     (e.code ≠ some "MODULE_NOT_FOUND" →
      (realResolve env deps baseMod basePkg name).isInstalled = some true)) ∧
    (realResolve env deps baseMod basePkg name).isValid = some false := by
  have hres : realResolve env deps baseMod basePkg name =
      { supportedRange := jsStrLookup deps (truncateName name)
        installedVersion := .vnull
        isValid := some false
        isInstalled := some (decide (e.code ≠ some "MODULE_NOT_FOUND"))
        pkgPath := truncateName name ++ "/package.json" } := by
    simp [realResolve, hdecl, hread]
  rw [hres]
  refine ⟨⟨?_, ?_⟩, rfl⟩
  · intro hc; simp [hc]
  · intro hc; simp [hc]

/-- A module loader where every module is missing. -/
def c3MissingRequire : NodeModule → String → Except JSError Loaded := fun _ _ =>
  .error ⟨some "MODULE_NOT_FOUND", "Cannot find module"⟩

def c3MissingEnv : Env := { sampleEnv with modRequire := c3MissingRequire }

/-- C3 witness: instantiating the amended theorem at a missing module. -/
theorem c3_manifest_read_failure_witness :
    isRealDepInPackage consumerPkg (truncateName "redis") = true ∧
    (realResolve c3MissingEnv [("redis", "~1.2.0")] appMod consumerPkg "redis").isInstalled
      = some false ∧
    (realResolve c3MissingEnv [("redis", "~1.2.0")] appMod consumerPkg "redis").isValid
      = some false := by
  have h := c3_manifest_read_failure c3MissingEnv [("redis", "~1.2.0")] appMod consumerPkg
    "redis" ⟨some "MODULE_NOT_FOUND", "Cannot find module"⟩ (by rfl) (by rfl)
  exact ⟨by rfl, h.1.1 rfl, h.2⟩

/-- C9: the gateway side channel resolve(name) is a manifest-only probe:
its result depends on the module loader only through the package.json
path of the truncated dependency name (the executable interface is never
loaded), and every outcome is encoded in the isInstalled field of the
returned record (the probe itself never throws). -/
theorem c9_resolve_probe_only (g : Gateway) (name : String) (env env' : Env)
    (hsat : env.satisfies = env'.satisfies)
    (hreq : env.modRequire g.baseMod (truncateName name ++ "/package.json") =
      env'.modRequire g.baseMod (truncateName name ++ "/package.json")) :
    Gateway.resolveDep env g name = Gateway.resolveDep env' g name ∧
    ∃ b : Bool, (Gateway.resolveDep env g name).isInstalled = some b := by
  constructor
  · simp only [Gateway.resolveDep, realResolve]
    rw [hreq, hsat]
  · simp only [Gateway.resolveDep, realResolve]
    split
    · exact ⟨false, rfl⟩
    · split
      · split
        · exact ⟨true, rfl⟩
        · exact ⟨true, rfl⟩
      · exact ⟨_, rfl⟩

/-- The gateway registered by the middleware in the sample environment. -/
def sampleGateway : Gateway := ⟨[("redis", "~1.2.0")], appMod, consumerPkg, "mw"⟩

/-- An environment like sampleEnv except that loading the redis interface
itself fails: the probe cannot tell the difference. -/
def c9NoExecRequire : NodeModule → String → Except JSError Loaded := fun _ spec =>
  if spec == "redis/package.json" then .ok ⟨⟨some "redis", .vstr "1.2.5", []⟩, 42⟩
  else .error ⟨none, "runtime explosion inside the module"⟩

def c9NoExecEnv : Env := { sampleEnv with modRequire := c9NoExecRequire }

/-- C9 witness: the probe gives the same result whether or not the
executable interface of redis is loadable. -/
theorem c9_resolve_probe_only_witness :
    Gateway.resolveDep sampleEnv sampleGateway "redis" =
      Gateway.resolveDep c9NoExecEnv sampleGateway "redis" ∧
    ∃ b : Bool, (Gateway.resolveDep sampleEnv sampleGateway "redis").isInstalled = some b := by
  exact c9_resolve_probe_only sampleGateway "redis" sampleEnv c9NoExecEnv (by rfl) (by rfl)

/-- C5: for an installed dependency with a declared range (other than the
no-constraint range) and a string version: the gateway call returns the
loaded interface when the version satisfies the range; otherwise it throws
an error naming both the version and the range, unless dontThrow is set,
in which case it returns empty. -/
theorem c5_range_check (env : Env) (deps : List (String × String)) (baseMod : NodeModule)
    (basePkg : Pkg) (middlewareName name r v : String) (pkgLoaded m : Loaded) (opt dt : Bool)
    (hname : truncateName name = name)
    (hr : jsStrLookup deps name = some r) (hrstar : r ≠ "*")
    (hdecl : isRealDepInPackage basePkg name = true)
    (hpkg : env.modRequire baseMod (name ++ "/package.json") = .ok pkgLoaded)
    (hver : pkgLoaded.pkg.version = .vstr v) (hvne : v ≠ "")
    (hmod : env.modRequire baseMod name = .ok m) :
    (env.satisfies v r = true →
      realRequire env deps baseMod basePkg middlewareName name ⟨opt, dt⟩ = .ret (some m)) ∧
    (env.satisfies v r = false →
      realRequire env deps baseMod basePkg middlewareName name ⟨opt, false⟩ =
        .thrown (.error ("Version \"" ++ v ++ "\" of module \"" ++ name ++
          "\" required by \"" ++ middlewareName ++
          "\" does not satisfy required range \"" ++ r ++ "\".")) ∧
      realRequire env deps baseMod basePkg middlewareName name ⟨opt, true⟩ = .ret none) := by
  have hres : realResolve env deps baseMod basePkg name =
      { supportedRange := some r
        installedVersion := .vstr v
        isValid := some (env.satisfies v r)
        isInstalled := some true
        pkgPath := name ++ "/package.json" } := by
    simp [realResolve, hname, hr, hdecl, hpkg, hver]
  refine ⟨?_, ?_⟩
  · intro hsat
    simp [realRequire, hres, hmod, optBoolTruthy, hrstar, JSVal.truthy, hvne,
      JSVal.isStr, hsat]
  · intro hsat
    constructor <;>
      simp [realRequire, hres, hmod, optBoolTruthy, hrstar, JSVal.truthy, hvne,
        JSVal.isStr, JSVal.jsToString, hsat]

/-- An environment where redis is installed at version 2.0.0, which does
not satisfy the declared range. -/
def c5BadRequire : NodeModule → String → Except JSError Loaded := fun _ spec =>
  if spec == "redis/package.json" then .ok ⟨⟨some "redis", .vstr "2.0.0", []⟩, 42⟩
  else if spec == "redis" then .ok ⟨⟨none, .vundef, []⟩, 7⟩
  else .error ⟨some "MODULE_NOT_FOUND", "Cannot find module"⟩

def c5BadEnv : Env := { sampleEnv with modRequire := c5BadRequire }

/-- C5 witness: redis at 1.2.5 satisfies ~1.2.0 and the interface is
returned; redis at 2.0.0 does not, and the call throws the descriptive
version error, or returns empty under dontThrow. -/
theorem c5_range_check_witness :
    sampleEnv.satisfies "1.2.5" "~1.2.0" = true ∧
    realRequire sampleEnv [("redis", "~1.2.0")] appMod consumerPkg "mw" "redis"
      ⟨false, false⟩ = .ret (some ⟨⟨none, .vundef, []⟩, 7⟩) ∧
    realRequire c5BadEnv [("redis", "~1.2.0")] appMod consumerPkg "mw" "redis"
      ⟨false, false⟩ = .thrown (.error ("Version \"2.0.0\" of module \"redis\" required " ++
        "by \"mw\" does not satisfy required range \"~1.2.0\".")) ∧
    realRequire c5BadEnv [("redis", "~1.2.0")] appMod consumerPkg "mw" "redis"
      ⟨false, true⟩ = .ret none := by
  have hgood := c5_range_check sampleEnv [("redis", "~1.2.0")] appMod consumerPkg "mw"
    "redis" "~1.2.0" "1.2.5" ⟨⟨some "redis", .vstr "1.2.5", []⟩, 42⟩ ⟨⟨none, .vundef, []⟩, 7⟩
    false false (by rfl) (by rfl) (by decide) (by rfl) (by rfl) (by rfl) (by decide) (by rfl)
  have hbad := c5_range_check c5BadEnv [("redis", "~1.2.0")] appMod consumerPkg "mw"
    "redis" "~1.2.0" "2.0.0" ⟨⟨some "redis", .vstr "2.0.0", []⟩, 42⟩ ⟨⟨none, .vundef, []⟩, 7⟩
    false false (by rfl) (by rfl) (by decide) (by rfl) (by rfl) (by rfl) (by decide) (by rfl)
  exact ⟨by rfl, hgood.1 (by rfl), (hbad.2 (by rfl)).1, (hbad.2 (by rfl)).2⟩

/-- If one section extraction succeeds and the key does not occur in the
section, its binding in the result is its binding in the accumulator. -/
theorem extractSection_ok_lookup_notin (env : Env) (entries : List (String × String)) :
    ∀ acc m : List (String × String), ∀ X : String,
    extractSection env acc entries = .ok m → entries.lookup X = none →
    m.lookup X = acc.lookup X := by
  induction entries with
  | nil =>
    intro acc m X h _
    simp only [extractSection] at h
    injection h with h
    rw [← h]
  | cons p rest ih =>
    intro acc m X h hX
    obtain ⟨n, r⟩ := p
    simp only [extractSection] at h
    split at h
    · simp only [List.lookup_cons] at hX
      cases hk : X == n with
      | true => rw [hk] at hX; simp at hX
      | false =>
        rw [hk] at hX
        rw [ih (objSet acc n r) m X h hX]
        exact lookup_objSet_ne acc n r X hk
    · exact absurd h (by simp)

/-- If one section extraction succeeds and the key occurs in the section
(whose keys are unique, as in a JS object), its binding in the result is
the one from the section. -/
theorem extractSection_ok_lookup_last (env : Env) (entries : List (String × String)) :
    ∀ acc m : List (String × String), ∀ X r : String,
    extractSection env acc entries = .ok m → entries.lookup X = some r →
    (entries.map Prod.fst).Nodup → m.lookup X = some r := by
  induction entries with
  | nil => intro acc m X r h hX; simp [List.lookup] at hX
  | cons p rest ih =>
    intro acc m X r h hX hnd
    obtain ⟨n, rr⟩ := p
    simp only [List.map_cons, List.nodup_cons] at hnd
    simp only [extractSection] at h
    split at h
    · simp only [List.lookup_cons] at hX
      cases hk : X == n with
      | true =>
        rw [hk] at hX
        injection hX with hX
        have hXn : X = n := by simpa using hk
        have hrest : rest.lookup X = none := by
          apply lookup_eq_none_of_not_mem_keys
          rw [hXn]
          exact hnd.1
        rw [extractSection_ok_lookup_notin env rest (objSet acc n rr) m X h hrest]
        rw [hXn, hX]
        exact lookup_objSet_self acc n r
      | false =>
        rw [hk] at hX
        exact ih (objSet acc n rr) m X r h hX hnd.2
    · exact absurd h (by simp)

/-- C6: extract merges the listed sections in order into one flat map; on
a name collision between two listed sections the later section wins. -/
theorem c6_extract_last_write_wins (env : Env) (pkg : Pkg) (secA secB : String)
    (la lb m : List (String × String)) (X ra rb : String)
    (hA : pkg.sections.lookup secA = some la)
    (hB : pkg.sections.lookup secB = some lb)
    (_hXa : la.lookup X = some ra)
    (hXb : lb.lookup X = some rb)
    (hnd : (lb.map Prod.fst).Nodup)
    (hok : extractDeps env pkg [secA, secB] = .ok m) :
    m.lookup X = some rb := by
  simp only [extractDeps, extractLoop, hA, hB] at hok
  cases h1 : extractSection env [] la with
  | error e => rw [h1] at hok; simp at hok
  | ok acc1 =>
    rw [h1] at hok
    simp only [extractLoop, hB] at hok
    cases h2 : extractSection env acc1 lb with
    | error e => rw [h2] at hok; simp at hok
    | ok acc2 =>
      rw [h2] at hok
      simp only [extractLoop, Except.ok.injEq] at hok
      rw [← hok]
      exact extractSection_ok_lookup_last env lb acc1 acc2 X rb h2 hXb hnd

/-- C6 witness: sections A and B both declare X; the result holds the
range from B. -/
def c6Pkg : Pkg :=
  ⟨some "mw", .vstr "1.0.0",
    [("A", [("X", "~1.0.0"), ("Y", "~3.0.0")]), ("B", [("X", "~2.0.0")])]⟩

theorem c6_extract_last_write_wins_witness :
    extractDeps sampleEnv c6Pkg ["A", "B"] =
      .ok [("X", "~2.0.0"), ("Y", "~3.0.0")] ∧
    List.lookup "X" [("X", "~2.0.0"), ("Y", "~3.0.0")] = some "~2.0.0" := by
  refine ⟨by rfl, ?_⟩
  exact c6_extract_last_write_wins sampleEnv c6Pkg "A" "B"
    [("X", "~1.0.0"), ("Y", "~3.0.0")] [("X", "~2.0.0")] [("X", "~2.0.0"), ("Y", "~3.0.0")]
    "X" "~1.0.0" "~2.0.0" (by rfl) (by rfl) (by rfl) (by rfl) (by simp) (by rfl)

/-- The shape of extraction errors: a construction error naming the
offending dependency and its raw range string. -/
def IsRangeErr (env : Env) (e : Err) : Prop :=
  ∃ n r, env.validRange r = false ∧
    e = .error ("Version range \"" ++ r ++ "\" of dependency \"" ++ n ++ "\" is not valid.")

/-- Every extraction failure of one section is a range error naming the
offender. -/
theorem extractSection_error_shape (env : Env) (entries : List (String × String)) :
    ∀ acc : List (String × String), ∀ e : Err,
    extractSection env acc entries = .error e → IsRangeErr env e := by
  induction entries with
  | nil => intro acc e h; simp [extractSection] at h
  | cons p rest ih =>
    intro acc e h
    obtain ⟨n, r⟩ := p
    simp only [extractSection] at h
    split at h
    · exact ih _ e h
    · rename_i hv
      injection h with h
      exact ⟨n, r, by simpa using hv, h.symm⟩

/-- A section containing an entry with an invalid range makes its
extraction fail. -/
theorem extractSection_bad_errors (env : Env) (entries : List (String × String)) :
    ∀ acc : List (String × String), ∀ n0 r0 : String,
    (n0, r0) ∈ entries → env.validRange r0 = false →
    ∃ e, extractSection env acc entries = .error e ∧ IsRangeErr env e := by
  induction entries with
  | nil => intro acc n0 r0 hmem _; simp at hmem
  | cons p rest ih =>
    intro acc n0 r0 hmem hbad
    obtain ⟨n, r⟩ := p
    by_cases hv : env.validRange r = true
    · have hrest : (n0, r0) ∈ rest := by
        rcases List.mem_cons.mp hmem with heq | h
        · exfalso
          injection heq with h1 h2
          rw [h2] at hbad
          rw [hv] at hbad
          exact Bool.true_eq_false.mp hbad
        · exact h
      obtain ⟨e, he, hshape⟩ := ih (objSet acc n r) n0 r0 hrest hbad
      exact ⟨e, by simp [extractSection, hv, he], hshape⟩
    · have hv' : env.validRange r = false := by simpa using hv
      exact ⟨.error ("Version range \"" ++ r ++ "\" of dependency \"" ++ n ++
          "\" is not valid."),
        by simp [extractSection, hv'], n, r, hv', rfl⟩

/-- Every extraction failure over a section list is a range error naming
the offender. -/
theorem extractLoop_error_shape (env : Env) (pkg : Pkg) (index : List String) :
    ∀ acc : List (String × String), ∀ e : Err,
    extractLoop env pkg index acc = .error e → IsRangeErr env e := by
  induction index with
  | nil => intro acc e h; simp [extractLoop] at h
  | cons s rest ih =>
    intro acc e h
    simp only [extractLoop] at h
    cases hs : pkg.sections.lookup s with
    | none => simp only [hs] at h; exact ih _ e h
    | some entries =>
      simp only [hs] at h
      cases hx : extractSection env acc entries with
      | error e2 =>
        simp only [hx] at h
        injection h with h
        rw [← h]
        exact extractSection_error_shape env entries acc e2 hx
      | ok acc2 => simp only [hx] at h; exact ih acc2 e h

/-- A listed, present section containing an invalid range makes the whole
extraction fail with a range error naming an offender. -/
theorem extractLoop_bad_errors (env : Env) (pkg : Pkg) (index : List String) :
    ∀ acc : List (String × String), ∀ secName : String,
    ∀ entries : List (String × String), ∀ n0 r0 : String,
    secName ∈ index → pkg.sections.lookup secName = some entries →
    (n0, r0) ∈ entries → env.validRange r0 = false →
    ∃ e, extractLoop env pkg index acc = .error e ∧ IsRangeErr env e := by
  induction index with
  | nil => intro acc secName entries n0 r0 hmem; simp at hmem
  | cons s rest ih =>
    intro acc secName entries n0 r0 hmem hlook hentry hbad
    simp only [extractLoop]
    by_cases hss : s = secName
    · subst hss
      obtain ⟨e, he, hshape⟩ := extractSection_bad_errors env entries acc n0 r0 hentry hbad
      simp only [hlook, he]
      exact ⟨e, rfl, hshape⟩
    · have hrest : secName ∈ rest := by
        rcases List.mem_cons.mp hmem with heq | h
        · exact absurd heq.symm hss
        · exact h
      cases hs : pkg.sections.lookup s with
      | none =>
        simp only [hs]
        exact ih acc secName entries n0 r0 hrest hlook hentry hbad
      | some ents =>
        simp only [hs]
        cases hx : extractSection env acc ents with
        | error e2 =>
          simp only [hx]
          exact ⟨e2, rfl, extractSection_error_shape env ents acc e2 hx⟩
        | ok acc2 =>
          simp only [hx]
          exact ih acc2 secName entries n0 r0 hrest hlook hentry hbad

/-- C7: a dependency with a syntactically invalid declared range in a
listed section of the middleware manifest aborts registration with a
construction error naming the offending dependency and raw range; the
registry is left unchanged (no gateway produced or cached), and the
extraction was the last thing attempted. -/
theorem c7_invalid_range_aborts (env : Env) (st : List (String × Gateway))
    (bm : NodeModule) (o : RegOptions) (pkg : Pkg) (middlewareName secName : String)
    (entries : List (String × String)) (n0 r0 : String)
    (hfp : findPackage env bm (decide (o.strictCheck ≠ some false)) = .ok pkg)
    (hname : jsOrStr o.name pkg.name = some middlewareName)
    (hmiss : st.lookup middlewareName = none)
    (hsec : secName ∈ o.index.getD ["optionalPeerDependencies"])
    (hlook : pkg.sections.lookup secName = some entries)
    (hentry : (n0, r0) ∈ entries)
    (hbad : env.validRange r0 = false) :
    ∃ n r, env.validRange r = false ∧
      register env st bm o =
        (.error (.error ("Version range \"" ++ r ++ "\" of dependency \"" ++ n ++
          "\" is not valid.")), st, ⟨1, 1⟩) := by
  obtain ⟨e, he, n, r, hv, hshape⟩ :=
    extractLoop_bad_errors env pkg (o.index.getD ["optionalPeerDependencies"]) []
      secName entries n0 r0 hsec hlook hentry hbad
  refine ⟨n, r, hv, ?_⟩
  simp only [register, hfp, hname, hmiss, extractDeps, he, hshape]

/-- The middleware manifest with an invalid declared range. -/
def c7Pkg : Pkg :=
  ⟨some "mw", .vstr "1.0.0", [("optionalPeerDependencies", [("foo", "not-a-version")])]⟩

def c7GlobalRequire : List String → Except JSError Loaded := fun p =>
  if p == ["app", "node_modules", "mw", "package.json"] then .ok ⟨c7Pkg, 10⟩
  else if p == ["app", "node_modules", "mw"] then .ok ⟨c7Pkg, 1⟩
  else if p == ["app", "package.json"] then .ok ⟨consumerPkg, 11⟩
  else .error ⟨some "MODULE_NOT_FOUND", "Cannot find module"⟩

def c7Env : Env := { sampleEnv with globalRequire := c7GlobalRequire }

/-- C7 witness: registering the middleware whose manifest declares the
range "not-a-version" fails with the naming error and caches nothing. -/
theorem c7_invalid_range_aborts_witness :
    (∃ n r, c7Env.validRange r = false ∧
      register c7Env [] mwMod ⟨none, none, none⟩ =
        (.error (.error ("Version range \"" ++ r ++ "\" of dependency \"" ++ n ++
          "\" is not valid.")), [], ⟨1, 1⟩)) ∧
    register c7Env [] mwMod ⟨none, none, none⟩ =
      (.error (.error "Version range \"not-a-version\" of dependency \"foo\" is not valid."),
        [], ⟨1, 1⟩) := by
  constructor
  · exact c7_invalid_range_aborts c7Env [] mwMod ⟨none, none, none⟩ c7Pkg "mw"
      "optionalPeerDependencies" [("foo", "not-a-version")] "foo" "not-a-version"
      (by rfl) (by rfl) (by rfl) (by simp) (by rfl) (by simp) (by rfl)
  · rfl

/-- If package.json exists in none of the directories the upward scan
visits, the scan terminates at the root (the list whose parent directory
is itself) with the not-found error. -/
theorem findPackageGo_not_found (fsExists : List String → Bool) (rl : List String)
    (h : ∀ p : List String, p.reverse <:+ rl.tail →
      fsExists (p ++ ["package.json"]) = false) :
    findPackageGo fsExists rl = .error (.error "No package.json found") := by
  induction rl with
  | nil => rfl
  | cons c rest ih =>
    simp only [List.tail_cons] at h
    have hhere : fsExists (rest.reverse ++ ["package.json"]) = false := by
      apply h rest.reverse
      rw [List.reverse_reverse]
    simp only [findPackageGo, hhere]
    simp only [Bool.false_eq_true, if_false]
    exact ih (fun p hp => h p (hp.trans (List.tail_suffix rest)))

/-- C8: when no directory from the one containing the module file up to
and including the filesystem root holds a package.json, findPackage fails
with the not-found error (for either strictness). -/
theorem c8_no_manifest_error (env : Env) (baseModule : NodeModule) (strictCheck : Bool)
    (h : ∀ p : List String, p <+: baseModule.filename.dropLast →
      env.fileExists (p ++ ["package.json"]) = false) :
    findPackage env baseModule strictCheck = .error (.error "No package.json found") := by
  have hloop : findPackageLoop env.fileExists baseModule.filename =
      .error (.error "No package.json found") := by
    apply findPackageGo_not_found
    intro p hp
    apply h
    rw [List.tail_reverse] at hp
    exact List.reverse_suffix.mp hp
  simp [findPackage, findPackageLoop] at hloop ⊢
  simp [hloop]

/-- An environment without any manifest file on disk. -/
def c8Env : Env := { sampleEnv with fileExists := fun _ => false }

/-- C8 witness: locating from the middleware module in the manifest-free
environment fails with the not-found error. -/
theorem c8_no_manifest_error_witness :
    findPackage c8Env mwMod true = .error (.error "No package.json found") :=
  c8_no_manifest_error c8Env mwMod true (fun _ _ => rfl)

/-- C2 counterexample: in the sample environment, the second registration
call for the already-registered middleware still performs one manifest
scan (findPackage runs before the registry-cache check, to derive the
registration name); the claim that the manifest re-scan is skipped on the
second call is false. -/
theorem c2_second_call_rescans_manifest :
    (register sampleEnv ((register sampleEnv [] mwMod ⟨none, none, none⟩).2.1) mwMod
      ⟨none, none, none⟩).2.2.findPackageCalls = 1 ∧
    ¬ (register sampleEnv ((register sampleEnv [] mwMod ⟨none, none, none⟩).2.1) mwMod
      ⟨none, none, none⟩).2.2.findPackageCalls = 0 := by
  exact ⟨rfl, by decide⟩

/-- C2 amended: a successful registration followed by a second call with
the same arguments returns the identical gateway, leaves the registry
unchanged, and skips dependency re-extraction (extractCalls = 0) — but the
second call still performs one manifest scan (findPackageCalls = 1). -/
theorem c2_register_idempotent (env : Env) (st : List (String × Gateway))
    (bm : NodeModule) (o : RegOptions) (gw : Gateway) (st1 : List (String × Gateway))
    (eff1 : RegEffects)
    (h : register env st bm o = (.ok gw, st1, eff1)) :
    register env st1 bm o = (.ok gw, st1, ⟨1, 0⟩) := by
  simp only [register] at h ⊢
  cases hfp : findPackage env bm (decide (o.strictCheck ≠ some false)) with
  | error e => simp only [hfp] at h; simp at h
  | ok pkg =>
    simp only [hfp] at h ⊢
    cases hname : jsOrStr o.name pkg.name with
    | none => simp only [hname] at h; simp at h
    | some mwName =>
      simp only [hname] at h ⊢
      cases hlk : st.lookup mwName with
      | some gw0 =>
        simp only [hlk, Prod.mk.injEq, Except.ok.injEq] at h
        obtain ⟨hgw, hst, heff⟩ := h
        rw [← hst, hlk, hgw]
      | none =>
        simp only [hlk] at h
        cases hex : extractDeps env pkg (o.index.getD ["optionalPeerDependencies"]) with
        | error e => simp only [hex] at h; simp at h
        | ok deps =>
          simp only [hex] at h
          cases hpar : bm.parent with
          | none => simp only [hpar] at h; simp at h
          | some parentMod =>
            simp only [hpar] at h
            cases hfp2 : findPackage env parentMod false with
            | error e => simp only [hfp2] at h; simp at h
            | ok basePkg =>
              simp only [hfp2, Prod.mk.injEq, Except.ok.injEq] at h
              obtain ⟨hgw, hst, heff⟩ := h
              rw [← hst, ← hgw]
              simp [List.lookup_cons]

/-- C2 witness: registering the sample middleware twice returns the same
gateway object, with the declared dependency map built once; the second
call reports one manifest scan and no extraction. -/
theorem c2_register_idempotent_witness :
    register sampleEnv [] mwMod ⟨none, none, none⟩ =
      (.ok sampleGateway, [("mw", sampleGateway)], ⟨2, 1⟩) ∧
    register sampleEnv [("mw", sampleGateway)] mwMod ⟨none, none, none⟩ =
      (.ok sampleGateway, [("mw", sampleGateway)], ⟨1, 0⟩) := by
  refine ⟨by rfl, ?_⟩
  exact c2_register_idempotent sampleEnv [] mwMod ⟨none, none, none⟩ sampleGateway
    [("mw", sampleGateway)] ⟨2, 1⟩ (by rfl)

end Codependency
